import Mathlib

/-!
Verification of the `hibp` lookup engine (range.go) from nelz9999/go-hibp.

The Go code is shallowly embedded: bytes are `List Nat` (each value a byte),
text is `List Char`, the injected HTTP transport is a function parameter, and
errors are an explicit inductive type.  `strconv.ParseInt(_, 10, 64)` is
modelled faithfully, including its behaviour of returning the clamped boundary
value together with a range error.
-/

namespace Hibp

/-- Error values a lookup can produce, mirroring the error values used in
range.go: `io.ErrShortBuffer`, `io.ErrShortWrite`, a transport error from
`http.Client.Get`, a non-200 status turned into an error by `fetchPrefix`,
the "problem parsing results" error of `parseCount`, and the two error kinds
of `strconv.ParseInt` (invalid number / value out of range). -/
inductive Err where
  | shortBuffer
  | shortWrite
  | network (msg : String)
  | status (code : Nat)
  | parseResults (line : List Char)
  | invalidNumber
  | outOfRange
deriving DecidableEq

/-- Constant `sha1.Size`: the length in bytes of a SHA-1 digest. -/
def sha1Size : Nat := 20

/-- Constant `prefixSize = 5` from range.go. -/
def prefixSize : Nat := 5

/-- Constant `DefaultTemplate` from range.go. -/
def DefaultTemplate : String := "https://api.pwnedpasswords.com/range/%s"

/-- One uppercase hexadecimal digit, as produced by Go's `%X` verb. -/
def hexDigit (n : Nat) : Char :=
  if n < 10 then Char.ofNat (48 + n) else Char.ofNat (65 + (n - 10))

/-- Rendering `fmt.Sprintf("%X", sum)` of a byte slice: each byte becomes two
uppercase hexadecimal digits. -/
def hexUpper (sum : List Nat) : List Char :=
  sum.flatMap (fun b => [hexDigit (b / 16 % 16), hexDigit (b % 16)])

/-- Numeric value of a digit string, as `strconv.ParseInt` computes it;
`none` when some character is not a decimal digit. -/
def decValAux (acc : Nat) : List Char → Option Nat
  | [] => some acc
  | c :: cs =>
      if 48 ≤ c.toNat ∧ c.toNat ≤ 57 then
        decValAux (acc * 10 + (c.toNat - 48)) cs
      else
        none

/-- The digits-and-range part of `strconv.ParseInt(_, 10, 64)` after the sign
has been stripped (the role Go delegates to `ParseUint` plus the signed cutoff
checks): at least one decimal digit is required; on a syntax error the result
value is 0, on a range error the result value is the clamped boundary
(`math.MaxInt64` or `math.MinInt64`) — exactly as Go's `strconv` documents
and implements. -/
def parseIntCore (neg : Bool) (digits : List Char) : Int × Option Err :=
  if digits = [] then (0, some Err.invalidNumber)
  else
    match decValAux 0 digits with
    | none => (0, some Err.invalidNumber)
    | some v =>
        if neg then
          if v > 2 ^ 63 then (-(2 ^ 63 : Int), some Err.outOfRange)
          else (-(v : Int), none)
        else
          if v ≥ 2 ^ 63 then ((2 ^ 63 : Int) - 1, some Err.outOfRange)
          else ((v : Int), none)

/-- Model of `strconv.ParseInt(string s, 10, 64)`: an optional leading sign
followed by the digit string handled by `parseIntCore`. -/
def parseInt10_64 (s : List Char) : Int × Option Err :=
  match s with
  | [] => (0, some Err.invalidNumber)
  | c :: rest =>
      if c = '+' then parseIntCore false rest
      else if c = '-' then parseIntCore true rest
      else parseIntCore false s

/-- Helper `dropCR` from bufio: drops a single terminal carriage return. -/
def dropCR (l : List Char) : List Char :=
  if l.getLast? = some (Char.ofNat 13) then l.dropLast else l

/-- The sequence of line tokens a `bufio.Scanner` with `ScanLines` produces
from the given content: split on newline, no empty final token after a
terminal newline, no token at all for empty content, terminal `\r` stripped
from each line. -/
def scanLines (content : List Char) : List (List Char) :=
  if content = [] then []
  else
    let segs := content.splitOn (Char.ofNat 10)
    let segs := if content.getLast? = some (Char.ofNat 10) then segs.dropLast else segs
    segs.map dropCR

/-- Function `findSuffix` from range.go: the first scanned line that `bytes.HasPrefix`
the suffix, if any.  (A `bytes.Reader` never yields a read error, so the
`scanner.Err()` channel is always nil and is not modelled.) -/
def findSuffix (suffix : List Char) (content : List Char) : Option (List Char) :=
  (scanLines content).find? (fun l => suffix.isPrefixOf l)

/-- Function `parseCount` from range.go: split the line on `:`; exactly two fields are
required, and the second is parsed with `strconv.ParseInt(_, 10, 64)`. -/
def parseCount (line : List Char) : Int × Option Err :=
  match line.splitOn ':' with
  | [_, countField] => parseInt10_64 countField
  | _ => (0, some (Err.parseResults line))

/-- Method `Finder.Find` from range.go, with the transport abstracted as the
function `fetch` from the 5-character key to the fetched body or an error
(the composition of `fetchPrefix` with a concrete HTTP exchange). -/
def Find (fetch : List Char → Except Err (List Char)) (sum : List Nat) :
    Int × Option Err :=
  if sum.length < sha1Size then (0, some Err.shortBuffer)
  else if sum.length > sha1Size then (0, some Err.shortWrite)
  else
    let full := hexUpper sum
    match fetch (full.take prefixSize) with
    | Except.error e => (0, some e)
    | Except.ok body =>
        match findSuffix (full.drop prefixSize) body with
        | none => (0, none)
        | some line => if line = [] then (0, none) else parseCount line

/-- What one HTTP exchange can yield: a transport error from `conn.Get`, or a
response with a status code and a body. -/
inductive FetchOutcome where
  | netErr (msg : String)
  | response (status : Nat) (body : List Char)

/-- Method `Finder.fetchPrefix` from range.go, applied to the outcome of the HTTP
exchange for the built URL: a transport error propagates, a non-200 status
becomes an error, and otherwise the body is returned. -/
def fetchPrefix (outcome : FetchOutcome) : Except Err (List Char) :=
  match outcome with
  | FetchOutcome.netErr m => Except.error (Err.network m)
  | FetchOutcome.response st body =>
      if st ≠ 200 then Except.error (Err.status st) else Except.ok body

/-- Method `Finder.Find` running over a concrete HTTP world: `resp` maps the fetch
key to the outcome of the exchange. -/
def FindHTTP (resp : List Char → FetchOutcome) (sum : List Nat) :
    Int × Option Err :=
  Find (fun k => fetchPrefix (resp k)) sum

/-- The key `Find` hands to the transport: the first `prefixSize` characters
of the digest's uppercase hex rendering (`full[:prefixSize]`). -/
def fetchKey (sum : List Nat) : List Char :=
  (hexUpper sum).take prefixSize

/-- Structure `Finder` from range.go; the `*http.Client` field is abstracted by a type
parameter. -/
structure Finder (Client : Type) where
  tmpl : String
  conn : Client

/-- Constructor `NewFinder` from range.go: start from the defaults and apply the options
in order.  The ambient `http.DefaultClient` is passed explicitly. -/
def NewFinder {Client : Type} (defaultClient : Client)
    (options : List (Finder Client → Finder Client)) : Finder Client :=
  options.foldl (fun f opt => opt f) ⟨DefaultTemplate, defaultClient⟩

/-- Option `WithURLTemplate` from range.go. -/
def WithURLTemplate {Client : Type} (template : String) :
    Finder Client → Finder Client :=
  fun f => { f with tmpl := template }

/-- Option `WithClient` from range.go. -/
def WithClient {Client : Type} (client : Client) :
    Finder Client → Finder Client :=
  fun f => { f with conn := client }

/-! Section: Concrete test inputs -/

/-- The 20-byte all-zero digest; its hex rendering is forty `0` characters,
so its fetch key is `00000` and its suffix is thirty-five `0` characters. -/
def zeros20 : List Nat := List.replicate 20 0

/-- The suffix of `zeros20`: thirty-five `0` characters. -/
def sfx0 : List Char := List.replicate 35 '0'

/-! Section: Helper lemmas -/

theorem parseIntCore_snd (neg : Bool) (digits : List Char) :
    (parseIntCore neg digits).2 = none ∨
    (parseIntCore neg digits).2 = some Err.invalidNumber ∨
    (parseIntCore neg digits).2 = some Err.outOfRange := by
  unfold parseIntCore
  split
  · simp
  · rcases decValAux 0 digits with _ | v
    · simp
    · dsimp only
      split
      · split <;> simp
      · split <;> simp

theorem parseInt10_64_snd (s : List Char) :
    (parseInt10_64 s).2 = none ∨
    (parseInt10_64 s).2 = some Err.invalidNumber ∨
    (parseInt10_64 s).2 = some Err.outOfRange := by
  unfold parseInt10_64
  rcases s with _ | ⟨c, rest⟩
  · simp
  · dsimp only
    split
    · exact parseIntCore_snd false rest
    · split
      · exact parseIntCore_snd true rest
      · exact parseIntCore_snd false (c :: rest)

theorem parseCount_snd (line : List Char) :
    (parseCount line).2 = none ∨
    (parseCount line).2 = some Err.invalidNumber ∨
    (parseCount line).2 = some Err.outOfRange ∨
    (parseCount line).2 = some (Err.parseResults line) := by
  unfold parseCount
  split
  next fld cf heq =>
    rcases parseInt10_64_snd cf with h | h | h <;> simp [h]
  next => simp

theorem fetchPrefix_netErr (m : String) :
    fetchPrefix (FetchOutcome.netErr m) = Except.error (Err.network m) := rfl

theorem fetchPrefix_bad (st : Nat) (body : List Char) (h : st ≠ 200) :
    fetchPrefix (FetchOutcome.response st body) =
      Except.error (Err.status st) := by
  simp [fetchPrefix, h]

theorem fetchPrefix_200 (body : List Char) :
    fetchPrefix (FetchOutcome.response 200 body) = Except.ok body := rfl

theorem Find_length_eq (fetch : List Char → Except Err (List Char))
    (sum : List Nat) (h : sum.length = sha1Size) :
    Find fetch sum =
      (match fetch (fetchKey sum) with
       | Except.error e => (0, some e)
       | Except.ok body =>
           match findSuffix ((hexUpper sum).drop prefixSize) body with
           | none => (0, none)
           | some line => if line = [] then (0, none) else parseCount line) := by
  unfold Find
  rw [if_neg (by omega), if_neg (by omega)]
  rfl

theorem Find_fetch_err (fetch : List Char → Except Err (List Char))
    (sum : List Nat) (h : sum.length = sha1Size) (e : Err)
    (hf : fetch (fetchKey sum) = Except.error e) :
    Find fetch sum = (0, some e) := by
  rw [Find_length_eq fetch sum h, hf]

/-- C3: `Find` returns an input-validation error exactly when the input
length differs from 20 bytes: shorter inputs give count 0 with the
short-input error, longer inputs give count 0 with the long-input error, in
both cases for every possible fetcher (so the fetcher is never consulted);
for inputs of exactly 20 bytes no input-validation error is produced, for
every HTTP world. -/
theorem c3_input_validation (sum : List Nat) :
    (sum.length < sha1Size →
      ∀ fetch, Find fetch sum = (0, some Err.shortBuffer)) ∧
    (sum.length > sha1Size →
      ∀ fetch, Find fetch sum = (0, some Err.shortWrite)) ∧
    (sum.length = sha1Size → ∀ resp,
      (FindHTTP resp sum).2 ≠ some Err.shortBuffer ∧
      (FindHTTP resp sum).2 ≠ some Err.shortWrite) := by
  refine ⟨fun h fetch => ?_, fun h fetch => ?_, fun h resp => ?_⟩
  · unfold Find
    rw [if_pos h]
  · unfold Find
    rw [if_neg (by omega), if_pos h]
  · unfold FindHTTP
    rw [Find_length_eq _ sum h]
    rcases hr : resp (fetchKey sum) with m | ⟨st, body⟩
    · rw [fetchPrefix_netErr]
      simp
    · by_cases hst : st = 200
      · subst hst
        rw [fetchPrefix_200]
        dsimp only
        rcases hfs : findSuffix ((hexUpper sum).drop prefixSize) body with _ | line
        · simp
        · dsimp only
          by_cases hline : line = []
          · simp [hline]
          · rw [if_neg hline]
            rcases parseCount_snd line with hp | hp | hp | hp <;> simp [hp]
      · rw [fetchPrefix_bad st body hst]
        simp

/-- C3 witness: concrete instances of each of the three branches, at a
19-byte, 21-byte and 20-byte input. -/
theorem c3_input_validation_witness :
    Find (fun _ => Except.ok []) (List.replicate 19 0) =
      (0, some Err.shortBuffer) ∧
    Find (fun _ => Except.ok []) (List.replicate 21 0) =
      (0, some Err.shortWrite) ∧
    (FindHTTP (fun _ => FetchOutcome.response 200 []) zeros20).2 ≠
      some Err.shortBuffer ∧
    (FindHTTP (fun _ => FetchOutcome.response 200 []) zeros20).2 ≠
      some Err.shortWrite :=
  ⟨(c3_input_validation (List.replicate 19 0)).1 (by decide) _,
   (c3_input_validation (List.replicate 21 0)).2.1 (by decide) _,
   (c3_input_validation zeros20).2.2 (by decide) _⟩

/-- C5: parsing a matched line splits it on `:` and requires exactly two
fields (any other count is the parse-results error), parses the second field
with `strconv.ParseInt(_, 10, 64)`, and behaves as the spec's examples say on
`alpha:117`, `alpha:2345678901`, `alpha:bravo`, `::` and the empty line. -/
theorem c5_parse_count :
    (∀ line, (line.splitOn ':').length ≠ 2 →
        parseCount line = (0, some (Err.parseResults line))) ∧
    (∀ line fld cf, line.splitOn ':' = [fld, cf] →
        parseCount line = parseInt10_64 cf) ∧
    parseCount ("alpha:117".toList) = (117, none) ∧
    parseCount ("alpha:2345678901".toList) = (2345678901, none) ∧
    (parseCount ("alpha:bravo".toList)).2 = some Err.invalidNumber ∧
    (parseCount ("::".toList)).2 = some (Err.parseResults ("::".toList)) ∧
    (parseCount ("".toList)).2 = some (Err.parseResults ("".toList)) := by
  refine ⟨fun line h => ?_, fun line fld cf h => ?_,
    by decide, by decide, by decide, by decide, by decide⟩
  · unfold parseCount
    split
    next fld cf heq => rw [heq] at h; simp at h
    next => rfl
  · unfold parseCount
    rw [h]

/-- C5 witness: the two universally quantified parts of the parsing claim at
concrete lines. -/
theorem c5_parse_count_witness :
    parseCount ("alpha:117".toList) = parseInt10_64 ("117".toList) ∧
    parseCount ("hubba".toList) = (0, some (Err.parseResults ("hubba".toList))) :=
  ⟨c5_parse_count.2.1 ("alpha:117".toList) ("alpha".toList) ("117".toList)
      (by decide),
   c5_parse_count.1 ("hubba".toList) (by decide)⟩

theorem hexUpper_length (l : List Nat) : (hexUpper l).length = 2 * l.length := by
  induction l with
  | nil => rfl
  | cons b t ih =>
      simp only [hexUpper, List.flatMap_cons] at *
      simp [ih]
      omega

/-- A second 20-byte digest agreeing with `zeros20` on its first 20 bits
(first two bytes and the high nibble of the third byte) but nowhere else. -/
def c2Sum2 : List Nat := 0 :: 0 :: 5 :: List.replicate 17 255

/-- Fetcher returning an empty body everywhere. -/
def c2f1 : List Char → Except Err (List Char) := fun _ => Except.ok []

/-- Fetcher whose behaviour differs from `c2f1` except on 5-character keys. -/
def c2f2 : List Char → Except Err (List Char) :=
  fun k => Except.ok (k.drop 5)

/-- C2: the key handed to the fetcher is exactly the first five characters of
the digest's uppercase hex encoding; `Find`'s behaviour depends on the
fetcher only through its value at that key (so no part of the 35-character
suffix is ever part of the request); and any two digests agreeing on their
first 20 bits produce the identical key. -/
theorem c2_fetch_key (sum sum2 : List Nat)
    (h : sum.length = sha1Size) (h2 : sum2.length = sha1Size) :
    fetchKey sum = (hexUpper sum).take 5 ∧
    (fetchKey sum).length = 5 ∧
    (∀ f g, f (fetchKey sum) = g (fetchKey sum) → Find f sum = Find g sum) ∧
    ((∀ b ∈ sum, b < 256) → (∀ b ∈ sum2, b < 256) →
      sum.take 2 = sum2.take 2 →
      sum.getD 2 0 / 16 = sum2.getD 2 0 / 16 →
      fetchKey sum = fetchKey sum2) := by
  refine ⟨rfl, ?_, fun f g hfg => ?_, fun hv hv2 ht hd => ?_⟩
  · simp [fetchKey, hexUpper_length, h, sha1Size, prefixSize]
  · rw [Find_length_eq f sum h, Find_length_eq g sum h, hfg]
  · rcases sum with _ | ⟨a0, _ | ⟨a1, _ | ⟨a2, r⟩⟩⟩ <;>
      rcases sum2 with _ | ⟨b0, _ | ⟨b1, _ | ⟨b2, r2⟩⟩⟩ <;>
      simp_all [sha1Size, fetchKey, hexUpper, prefixSize, List.take]

/-- C2 witness: two fetchers agreeing at the key `00000` give the same
result on the all-zero digest, and a digest agreeing with the all-zero
digest on its first 20 bits only has the same fetch key. -/
theorem c2_fetch_key_witness :
    Find c2f1 zeros20 = Find c2f2 zeros20 ∧
    fetchKey zeros20 = fetchKey c2Sum2 := by
  have hmain := c2_fetch_key zeros20 c2Sum2 (by decide) (by decide)
  exact ⟨hmain.2.2.1 c2f1 c2f2 (by rfl),
    hmain.2.2.2 (by decide) (by decide) (by decide) (by decide)⟩

/-! Section: C1: round-trip -/

/-- The line whose leading field is exactly the suffix of `zeros20`, with
count 401. -/
def c1ExactLine : List Char := sfx0 ++ [':', '4', '0', '1']

/-- A line whose leading field is 36 zero characters (so it begins with the
35-character suffix of `zeros20` but its field is not equal to it). -/
def c1ExtraLine : List Char := (List.replicate 36 '0') ++ [':', '7']

/-- A Candidate Set in which the exactly-matching line is preceded by a line
that begins with the suffix without its field being equal to it. -/
def c1Body : List Char := c1ExtraLine ++ '\n' :: c1ExactLine

theorem parseIntCore_err_shape (neg : Bool) (digits : List Char) (v : Int)
    (e : Err) (h : parseIntCore neg digits = (v, some e)) :
    (e = Err.invalidNumber ∧ v = 0) ∨
    (e = Err.outOfRange ∧ (v = 2 ^ 63 - 1 ∨ v = -(2 ^ 63))) := by
  unfold parseIntCore at h
  split at h
  · simp only [Prod.mk.injEq, Option.some.injEq] at h
    exact Or.inl ⟨h.2.symm, h.1.symm⟩
  · split at h
    · simp only [Prod.mk.injEq, Option.some.injEq] at h
      exact Or.inl ⟨h.2.symm, h.1.symm⟩
    · split at h
      · split at h
        · simp only [Prod.mk.injEq, Option.some.injEq] at h
          exact Or.inr ⟨h.2.symm, Or.inr h.1.symm⟩
        · simp at h
      · split at h
        · simp only [Prod.mk.injEq, Option.some.injEq] at h
          exact Or.inr ⟨h.2.symm, Or.inl h.1.symm⟩
        · simp at h

theorem parseInt10_64_err_shape (s : List Char) (v : Int) (e : Err)
    (h : parseInt10_64 s = (v, some e)) :
    (e = Err.invalidNumber ∧ v = 0) ∨
    (e = Err.outOfRange ∧ (v = 2 ^ 63 - 1 ∨ v = -(2 ^ 63))) := by
  unfold parseInt10_64 at h
  rcases s with _ | ⟨c, rest⟩
  · simp only [Prod.mk.injEq, Option.some.injEq] at h
    exact Or.inl ⟨h.2.symm, h.1.symm⟩
  · dsimp only at h
    split at h
    · exact parseIntCore_err_shape _ _ _ _ h
    · split at h
      · exact parseIntCore_err_shape _ _ _ _ h
      · exact parseIntCore_err_shape _ _ _ _ h

theorem parseCount_err_shape (line : List Char) (v : Int) (e : Err)
    (h : parseCount line = (v, some e)) :
    (e = Err.parseResults line ∧ v = 0) ∨
    (e = Err.invalidNumber ∧ v = 0) ∨
    (e = Err.outOfRange ∧ (v = 2 ^ 63 - 1 ∨ v = -(2 ^ 63))) := by
  unfold parseCount at h
  split at h
  · rcases parseInt10_64_err_shape _ _ _ h with h1 | h1
    · exact Or.inr (Or.inl h1)
    · exact Or.inr (Or.inr h1)
  · simp only [Prod.mk.injEq, Option.some.injEq] at h
    exact Or.inl ⟨h.2.symm, h.1.symm⟩

theorem FindHTTP_cases (resp : List Char → FetchOutcome) (sum : List Nat) :
    FindHTTP resp sum = (0, some Err.shortBuffer) ∨
    FindHTTP resp sum = (0, some Err.shortWrite) ∨
    (∃ m, FindHTTP resp sum = (0, some (Err.network m))) ∨
    (∃ st, FindHTTP resp sum = (0, some (Err.status st))) ∨
    FindHTTP resp sum = (0, none) ∨
    (∃ line, line ≠ [] ∧ FindHTTP resp sum = parseCount line) := by
  unfold FindHTTP
  by_cases h1 : sum.length < sha1Size
  · left
    unfold Find
    rw [if_pos h1]
  · by_cases h2 : sum.length > sha1Size
    · right; left
      unfold Find
      rw [if_neg h1, if_pos h2]
    · have hlen : sum.length = sha1Size := by omega
      rw [Find_length_eq _ sum hlen]
      rcases hr : resp (fetchKey sum) with m | ⟨st, body⟩
      · rw [fetchPrefix_netErr]
        exact Or.inr (Or.inr (Or.inl ⟨m, rfl⟩))
      · by_cases hst : st = 200
        · subst hst
          rw [fetchPrefix_200]
          dsimp only
          rcases hfs : findSuffix ((hexUpper sum).drop prefixSize) body
            with _ | line
          · exact Or.inr (Or.inr (Or.inr (Or.inr (Or.inl rfl))))
          · dsimp only
            by_cases hline : line = []
            · rw [if_pos hline]
              exact Or.inr (Or.inr (Or.inr (Or.inr (Or.inl rfl))))
            · rw [if_neg hline]
              exact Or.inr (Or.inr (Or.inr (Or.inr (Or.inr
                ⟨line, hline, rfl⟩))))
        · rw [fetchPrefix_bad st body hst]
          exact Or.inr (Or.inr (Or.inr (Or.inl ⟨st, rfl⟩)))

/-! Section: C6: zero count on error -/

/-- A matched line whose count field exceeds the signed 64-bit range. -/
def c6Body : List Char := sfx0 ++ (":99999999999999999999").toList

/-- C6 counterexample: a count field beyond the signed 64-bit range makes
`Find` return the clamped value `2^63 - 1` together with the range error —
a non-nil error accompanied by a non-zero count. -/
theorem c6_counterexample :
    Find (fun _ => Except.ok c6Body) zeros20 =
      (2 ^ 63 - 1, some Err.outOfRange) ∧
    ¬ ((2 ^ 63 - 1 : Int) = 0) := by
  decide

/-- C6 (amended): whenever `Find` over an HTTP world returns a non-nil
error the count is 0, except for the out-of-range error, where the count is
the clamped boundary (`2^63 - 1` or `-2^63`) that `strconv.ParseInt`
returns alongside the range error. -/
theorem c6_zero_on_error (resp : List Char → FetchOutcome) (sum : List Nat)
    (v : Int) (e : Err) (h : FindHTTP resp sum = (v, some e)) :
    (e ≠ Err.outOfRange → v = 0) ∧
    (e = Err.outOfRange → v = 2 ^ 63 - 1 ∨ v = -(2 ^ 63)) := by
  rcases FindHTTP_cases resp sum with
    hc | hc | ⟨m, hc⟩ | ⟨st, hc⟩ | hc | ⟨line, hline, hc⟩ <;>
    rw [hc] at h
  · simp only [Prod.mk.injEq, Option.some.injEq] at h
    exact ⟨fun _ => h.1.symm, fun hx => Err.noConfusion (h.2.trans hx)⟩
  · simp only [Prod.mk.injEq, Option.some.injEq] at h
    exact ⟨fun _ => h.1.symm, fun hx => Err.noConfusion (h.2.trans hx)⟩
  · simp only [Prod.mk.injEq, Option.some.injEq] at h
    exact ⟨fun _ => h.1.symm, fun hx => Err.noConfusion (h.2.trans hx)⟩
  · simp only [Prod.mk.injEq, Option.some.injEq] at h
    exact ⟨fun _ => h.1.symm, fun hx => Err.noConfusion (h.2.trans hx)⟩
  · simp at h
  · rcases parseCount_err_shape line v e h with ⟨he, hv⟩ | ⟨he, hv⟩ | ⟨he, hv⟩ <;>
      subst he <;> simp_all

/-- C6 witness: a throttled (status 429) fetch returns count 0 with the
status error, matching the amended claim's first branch. -/
theorem c6_zero_on_error_witness :
    (Err.status 429 ≠ Err.outOfRange → (0 : Int) = 0) ∧
    (Err.status 429 = Err.outOfRange →
      (0 : Int) = 2 ^ 63 - 1 ∨ (0 : Int) = -(2 ^ 63)) :=
  c6_zero_on_error (fun _ => FetchOutcome.response 429 []) zeros20 0
    (Err.status 429) (by decide)

/-! Section: C7: non-negative count on success -/

/-- C8: for a 20-byte digest, a failing fetch (transport error or non-200
status) makes `Find` return count 0 with that error; the body of a non-200
response is never scanned or parsed (the outcome is identical for every
body), and the outcome differs from the not-found outcome `(0, none)`. -/
theorem c8_fetch_failure (sum : List Nat) (h : sum.length = sha1Size)
    (resp : List Char → FetchOutcome) :
    (∀ m, resp (fetchKey sum) = FetchOutcome.netErr m →
        FindHTTP resp sum = (0, some (Err.network m))) ∧
    (∀ st body, resp (fetchKey sum) = FetchOutcome.response st body →
        st ≠ 200 →
        FindHTTP resp sum = (0, some (Err.status st)) ∧
        (∀ body2 : List Char,
          FindHTTP (fun k => if k = fetchKey sum
            then FetchOutcome.response st body2 else resp k) sum =
          (0, some (Err.status st))) ∧
        ((0, some (Err.status st)) : Int × Option Err) ≠ (0, none)) := by
  constructor
  · intro m hm
    unfold FindHTTP
    exact Find_fetch_err _ sum h _ (by rw [hm, fetchPrefix_netErr])
  · intro st body hb hst
    refine ⟨?_, fun body2 => ?_, by simp⟩
    · unfold FindHTTP
      exact Find_fetch_err _ sum h _ (by rw [hb, fetchPrefix_bad st body hst])
    · unfold FindHTTP
      exact Find_fetch_err _ sum h _
        (by dsimp only; rw [if_pos rfl, fetchPrefix_bad st body2 hst])

/-- C8 witness: a throttled fetch (status 429) on the all-zero digest. -/
theorem c8_fetch_failure_witness :
    FindHTTP (fun _ => FetchOutcome.response 429 c1Body) zeros20 =
      (0, some (Err.status 429)) :=
  ((c8_fetch_failure zeros20 (by decide)
      (fun _ => FetchOutcome.response 429 c1Body)).2 429 c1Body rfl
      (by decide)).1

/-! Section: C9: configuration options -/

/-- C9: `NewFinder` with no options produces the default template and the
default client; the template option rewrites only the template field and the
client option rewrites only the client field, also when applied through
`NewFinder`. -/
theorem c9_options {Client : Type} (defaultClient : Client) :
    NewFinder defaultClient [] =
      (⟨DefaultTemplate, defaultClient⟩ : Finder Client) ∧
    (∀ (f : Finder Client) t, (WithURLTemplate t f).tmpl = t ∧
        (WithURLTemplate t f).conn = f.conn) ∧
    (∀ (f : Finder Client) c, (WithClient c f).conn = c ∧
        (WithClient c f).tmpl = f.tmpl) ∧
    (∀ t, NewFinder defaultClient [WithURLTemplate t] =
        (⟨t, defaultClient⟩ : Finder Client)) ∧
    (∀ c, NewFinder defaultClient [WithClient c] =
        (⟨DefaultTemplate, c⟩ : Finder Client)) :=
  ⟨rfl, fun _ _ => ⟨rfl, rfl⟩, fun _ _ => ⟨rfl, rfl⟩,
   fun _ => rfl, fun _ => rfl⟩

/-! Section: C10: only the first matching line matters -/

end Hibp
